import Mathlib

/-!
Shallow embedding of `src/testpattern/imp.rs` (gst-plugin-pattern, a GStreamer
test-pattern push source written in Rust).

Machine integers are modelled as `Nat` with explicit reduction modulo `2^32`
(`u32`, Rust release-mode wrapping arithmetic) or `2^64` (`u64`) at the points
where the source performs fixed-width arithmetic.  Rust panics (`unwrap` on
`None`, slice-out-of-range, `%` by zero, `chunks_exact` with chunk size 0,
overflowing `ClockTime` arithmetic) are modelled as an explicit `panic`
outcome / `Option.none`.  Calls into the GStreamer library (caps parsing,
caps fixation, buffer mapping, `sync_values`, pool configuration, the parent
class implementations) are external to this repository; they are modelled as
explicitly-named inputs (fields such as `mappable`, `parse`, or function
parameters such as `syncOk`, `fixateOps`, `setConfigOk`), each documented at
its declaration.
-/

namespace GstPattern

/-- `2^32`, the modulus of Rust `u32` arithmetic. -/
def U32 : Nat := 4294967296

/-- `2^64`, the modulus of Rust `u64` arithmetic. -/
def U64 : Nat := 18446744073709551616

/-- Truncation to 32 bits: Rust release-mode wrapping `u32` arithmetic /
`as u32` casts. -/
def u32 (n : Nat) : Nat := n % U32

/-- Truncation to 64 bits: Rust release-mode wrapping `u64` arithmetic. -/
def u64 (n : Nat) : Nat := n % U64

/-- `gst_video::VideoFormat`; only the variants this element touches. -/
inductive VideoFormat
  | unknown
  | bgrx
  | rgba
deriving DecidableEq

/-- `gst_video::VideoInfo`: the negotiated format descriptor.  `size` is
`info.size()` (frame byte size) and `stride` is `plane_stride()[0]`, both
computed by the GStreamer library when the descriptor is produced; here they
are carried as data. -/
structure VideoInfo where
  format : VideoFormat
  width : Nat
  height : Nat
  fpsNum : Nat
  fpsDen : Nat
  size : Nat
  stride : Nat
deriving DecidableEq

/-- The `Settings` struct of `imp.rs` (property storage plus timing state).
All integer fields are `u32` (`foreground_color` .. `speed`) or `u64` /
`ClockTime` nanoseconds (`accum_frames` .. `accum_rtime`). -/
structure Settings where
  foreground_color : Nat
  background_color : Nat
  info : Option VideoInfo
  size : Nat
  offset : Nat
  speed : Nat
  accum_frames : Nat
  n_frames : Nat
  running_time : Nat
  accum_rtime : Nat
deriving DecidableEq

/-- `Settings::default()` / `constructed()`: the defaults from `imp.rs`. -/
def Settings.default : Settings :=
  { foreground_color := 0xffffffff
    background_color := 0xff000000
    info := none
    size := 50
    offset := 0
    speed := 5
    accum_frames := 0
    n_frames := 0
    running_time := 0
    accum_rtime := 0 }

/-- A `gst::Buffer`: payload bytes plus the metadata this element stamps.
`mappable` models whether `VideoFrameRef::from_buffer_ref_writable` (a
GStreamer library call checking writability and size against the format)
succeeds for this buffer. -/
structure Buffer where
  data : List Nat
  pts : Option Nat
  dts : Option Nat
  offset : Nat
  offset_end : Nat
  duration : Option Nat
  mappable : Bool
deriving DecidableEq

/-- A fresh buffer as handed to `fill` before any stamping. -/
def freshBuffer : Buffer :=
  { data := [], pts := none, dts := none, offset := 0, offset_end := 0,
    duration := none, mappable := false }

/-- `gst::FlowError`; only the variants this element produces. -/
inductive FlowError
  | notNegotiated
  | error
deriving DecidableEq

/-- The bar test of `make_image`, line 93 of `imp.rs`:
`(line_idx >= settings.offset) && line_idx < (settings.offset + settings.size)`
where `line_idx` is `idx as u32` and the sum wraps in `u32`. -/
def barCond (offs barSize lineIdx : Nat) : Bool :=
  decide (offs ≤ u32 lineIdx) && decide (u32 lineIdx < u32 (offs + barSize))

/-- The inner pixel loop of `make_image`:
`for out_p in line[..width].chunks_exact_mut(4)` writing `c` to bytes 0,1,2 of
each complete 4-byte chunk of the first `w4` bytes and leaving byte 3 (and any
trailing bytes) untouched. -/
def paintRow (c : Nat) : Nat → List Nat → List Nat
  | w4, b0 :: b1 :: b2 :: b3 :: rest =>
    if 4 ≤ w4 then c :: c :: c :: b3 :: paintRow c (w4 - 4) rest
    else b0 :: b1 :: b2 :: b3 :: rest
  | _, l => l

/-- The row loop of `make_image`:
`for (idx, line) in data.chunks_exact_mut(stride).enumerate()`, painting each
complete `stride`-byte row with white (255) or black (0) according to
`barCond` and leaving a trailing partial row untouched.  `idx` is the
enumeration index of the first remaining row. -/
def paintData (offs barSize w4 stride : Nat) : Nat → List Nat → List Nat
  | idx, data =>
    if h : 0 < stride ∧ stride ≤ data.length then
      paintRow (if barCond offs barSize idx then 255 else 0) w4 (data.take stride)
        ++ paintData offs barSize w4 stride (idx + 1) (data.drop stride)
    else data
termination_by idx data => data.length
decreasing_by simp only [List.length_drop]; omega

/-- `TestPatternSrc::make_image` (imp.rs lines 77-106).  Returns `none` on
the Rust panics: `settings.info.unwrap()` with `info = None`;
`chunks_exact_mut(0)`; the `line[..width]` slice when `width > stride` and at
least one complete row exists (the slice panic fires on the first iteration,
so it is hoisted before the loop); `offset %= info.height()` with height 0.
On success, paints the data and advances
`offset = ((offset + speed) mod 2^32) mod height` (wrapping `u32` add, then
`%=`). -/
def make_image (settings : Settings) (frame : List Nat) : Option (List Nat × Settings) :=
  match settings.info with
  | none => none
  | some info =>
    let stride := info.stride
    let width := 4 * info.width
    if stride = 0 then none
    else if stride ≤ frame.length ∧ ¬ width ≤ stride then none
    else
      let d2 := paintData settings.offset settings.size width stride 0 frame
      if info.height = 0 then none
      else some (d2,
        { settings with offset := u32 (settings.offset + settings.speed) % info.height })

/-- Outcome of `fill_image` / `PushSrcImpl::fill`.  `err` and `ok` carry the
state of the mutex-guarded `Settings` and of the buffer at the return point
(the source mutates both through `&mut` references); `panic` models a Rust
panic. -/
inductive FillOut
  | panic
  | err (e : FlowError) (settings : Settings) (buffer : Buffer)
  | ok (buffer : Buffer) (settings : Settings)
deriving DecidableEq

/-- `TestPatternSrc::fill_image` (imp.rs lines 108-125): panics on
`settings.info.unwrap()` when no format descriptor is set, returns
`NotNegotiated` when the format is `Unknown`, panics on `buffer.pts().unwrap()`
when the buffer carries no pts, treats a mapping failure as a logged no-op
success, and otherwise delegates to `make_image`. -/
def fill_image (settings : Settings) (buffer : Buffer) : FillOut :=
  match settings.info with
  | none => .panic
  | some info =>
    if info.format = VideoFormat.unknown then .err .notNegotiated settings buffer
    else
      match buffer.pts with
      | none => .panic
      | some _ =>
        if buffer.mappable then
          match make_image settings buffer.data with
          | none => .panic
          | some (d2, s2) => .ok { buffer with data := d2 } s2
        else .ok buffer settings

/-- `gst_util_uint64_scale(val, num, denom)`: `val * num / denom` computed with
a 128-bit intermediate (here: exact `Nat` arithmetic); returns `G_MAXUINT64`
when `denom = 0` (failed glib precondition) or when the result does not fit in
64 bits. -/
def gst_util_uint64_scale (val num denom : Nat) : Nat :=
  if denom = 0 then U64 - 1
  else min (val * num / denom) (U64 - 1)

/-- `PushSrcImpl::fill` (imp.rs lines 445-476).  `syncOk` models the outcome
of the external `element.sync_values(pts)` call, whose `Err` is `unwrap`ped.
`ClockTime` additions/subtractions that would overflow, and
`ClockTime::from_nseconds` applied to the `u64::MAX` sentinel, panic. -/
def fill (syncOk : Bool) (settings : Settings) (buffer : Buffer) : FillOut :=
  match settings.info with
  | none => .panic
  | some info =>
    let pts := settings.accum_rtime + settings.running_time
    if U64 - 1 ≤ pts then .panic
    else if syncOk = false then .panic
    else
      let b1 := { buffer with pts := some pts }
      match fill_image settings b1 with
      | .panic => .panic
      | .err e s2 b2 => .err e s2 b2
      | .ok b2 s2 =>
        let b3 := { b2 with dts := none, offset := u64 (s2.accum_frames + s2.n_frames) }
        let s3 := { s2 with n_frames := u64 (s2.n_frames + 1) }
        let b4 := { b3 with offset_end := u64 (b3.offset + 1) }
        let nextTime :=
          gst_util_uint64_scale s3.n_frames (u64 (info.fpsDen * 1000000000)) info.fpsNum
        if nextTime = U64 - 1 then .panic
        else if nextTime < s3.running_time then .panic
        else
          .ok { b4 with duration := some (nextTime - s3.running_time) }
            { s3 with running_time := nextTime }

/-- One structure of a `gst::Caps`; only its name is inspected by this
element. -/
structure CapsStructure where
  name : String
deriving DecidableEq

/-- A `gst::Caps` as consumed by `set_caps`: its list of structures, plus the
result `parse` of the external library parser `VideoInfo::from_caps` on these
caps (`none` models a parse failure). -/
structure Caps where
  structs : List CapsStructure
  parse : Option VideoInfo
deriving DecidableEq

/-- Outcome of `set_caps`: `err` is the `LoggableError` return (carrying the
settings state at the return point), `panic` the `caps.structure(0).unwrap()`
panic on caps with no structure. -/
inductive CapsOut
  | panic
  | err (settings : Settings)
  | ok (settings : Settings)
deriving DecidableEq

/-- `BaseSrcImpl::set_caps` (imp.rs lines 300-318).  On success stores the
parsed descriptor and then performs the epoch transfer exactly as written in
the source: `accum_rtime = running_time` and `accum_frames = n_frames`
(plain assignments, not `+=`), followed by `running_time = 0`,
`n_frames = 0`. -/
def set_caps (settings : Settings) (caps : Caps) : CapsOut :=
  match caps.structs.head? with
  | none => .panic
  | some st =>
    if st.name = "video/x-raw" then
      match caps.parse with
      | none => .err settings
      | some info =>
        .ok { settings with
              info := some info
              accum_rtime := settings.running_time
              accum_frames := settings.n_frames
              running_time := 0
              n_frames := 0 }
    else .err settings

/-- The descriptor built by `start()` via `VideoInfo::builder(Rgba, 320, 240)`
with fps 0/1; `size`/`stride` are the values the library computes for packed
RGBA 320x240. -/
def startInfo : VideoInfo :=
  { format := .rgba, width := 320, height := 240, fpsNum := 0, fpsDen := 1,
    size := 307200, stride := 1280 }

/-- `BaseSrcImpl::start` (imp.rs lines 353-371): zeroes all timing state and
installs the default descriptor. -/
def start (settings : Settings) : Settings :=
  { settings with running_time := 0, n_frames := 0, accum_frames := 0,
                  accum_rtime := 0, info := some startInfo }

/-- `BaseSrcImpl::fixate` (imp.rs lines 320-351).  The caps are an abstract
type `C`; `fixateOps` models the external caps operations of the opaque-alpha
branch (`fixate_field_nearest_int` width 320 / height 240, framerate toward
30/1, and `parent_fixate`), which only run when
`foreground_color >> 24 == 255`.  The settings are read, never written (the
guard's `gst::loggable_error!` value is constructed and dropped). -/
def fixate {C : Type} (fixateOps : C → C) (settings : Settings) (caps : C) :
    C × Settings :=
  if settings.foreground_color >>> 24 = 255 then (fixateOps caps, settings)
  else (caps, settings)

/-- The pool chosen by `decide_allocation`: a freshly created
`VideoBufferPool`, or the pool object of the first proposal (identified by an
abstract id). -/
inductive PoolChoice
  | fresh
  | proposed (id : Nat)
deriving DecidableEq

/-- An allocation query: the proposed pools `(pool, size, min, max)` (pool
`none` when the proposal carries no pool object) and whether the query
advertises `VideoMeta` support. -/
structure AllocQuery where
  pools : List (Option Nat × Nat × Nat × Nat)
  hasVideoMeta : Bool
deriving DecidableEq

/-- The pool decision `decide_allocation` reports back on the query:
which pool, the configured `(size, min, max)`, whether it was reported via
`set_nth_allocation_pool 0` (`update = true`) or `add_allocation_pool`
(`update = false`), and whether the video-meta option was enabled. -/
structure AllocDecision where
  pool : PoolChoice
  size : Nat
  min : Nat
  max : Nat
  update : Bool
  videoMetaEnabled : Bool
deriving DecidableEq

/-- Outcome of `decide_allocation`. -/
inductive AllocOut
  | panic
  | err
  | ok (d : AllocDecision)
deriving DecidableEq

/-- `BaseSrcImpl::decide_allocation` (imp.rs lines 373-413).  `setConfigOk`
models the external `pool.set_config(config)` result (its `Err` is returned
as a `LoggableError` before the pool is reported); the trailing
`parent_decide_allocation` is outside the repository and not modelled.  Sizes
pass through `as u32` casts, i.e. truncation modulo `2^32`. -/
def decide_allocation (setConfigOk : Bool) (settings : Settings) (q : AllocQuery) :
    AllocOut :=
  match settings.info with
  | none => .panic
  | some info =>
    let choice :=
      match q.pools with
      | [] => (PoolChoice.fresh, u32 info.size, 0, 0, false)
      | (p0, sz0, mn0, mx0) :: _ =>
        ((match p0 with
          | none => PoolChoice.fresh
          | some pid => PoolChoice.proposed pid),
         u32 (max info.size sz0), mn0, mx0, true)
    if setConfigOk then
      .ok { pool := choice.1, size := choice.2.1, min := choice.2.2.1,
            max := choice.2.2.2.1, update := choice.2.2.2.2,
            videoMetaEnabled := q.hasVideoMeta }
    else .err

/-- The four named properties dispatched by `set_property`. -/
inductive PropertyName
  | foregroundColor
  | backgroundColor
  | speed
  | size
deriving DecidableEq

/-- `ObjectImpl::set_property` (imp.rs lines 184-208), restricted to the four
registered names (any other name is `unimplemented!`). -/
def set_property (settings : Settings) (p : PropertyName) (v : Nat) : Settings :=
  match p with
  | .foregroundColor => { settings with foreground_color := v }
  | .backgroundColor => { settings with background_color := v }
  | .speed => { settings with speed := v }
  | .size => { settings with size := v }

/-- Outcome of `create`: like `FillOut` but the error return of the failed
`alloc`/`fill` carries only the settings (the buffer has been dropped). -/
inductive CreateOut
  | panic
  | err (e : FlowError) (settings : Settings)
  | ok (buffer : Buffer) (settings : Settings)
deriving DecidableEq

/-- `BaseSrcImpl::create` (imp.rs lines 415-427): allocate, then fill when
`length > 0`, propagating either failure with `?`.  `allocRes` models the
result of `BaseSrcImpl::alloc` (a pool acquisition or raw allocation, both
external). -/
def create (syncOk : Bool) (settings : Settings)
    (allocRes : Except FlowError Buffer) (length : Nat) : CreateOut :=
  match allocRes with
  | .error e => .err e settings
  | .ok buffer =>
    if 0 < length then
      match fill syncOk settings buffer with
      | .panic => .panic
      | .err e s2 _ => .err e s2
      | .ok b2 s2 => .ok b2 s2
    else .ok buffer settings

/-- An event of a negotiation/production trace: a successful-or-not caps
renegotiation, or one pull producing a frame. -/
inductive Ev
  | caps (c : Caps)
  | frame
deriving DecidableEq

/-- Run a trace of renegotiations and frame productions from a settings state,
collecting the pts stamped on each produced buffer.  Each production uses a
fresh buffer; `none` when any step fails or panics. -/
def run (settings : Settings) (pts : List Nat) :
    List Ev → Option (Settings × List Nat)
  | [] => some (settings, pts)
  | Ev.caps c :: evs =>
    match set_caps settings c with
    | .ok s2 => run s2 pts evs
    | _ => none
  | Ev.frame :: evs =>
    match fill true settings freshBuffer with
    | .ok b s2 =>
      match b.pts with
      | some p => run s2 (pts ++ [p]) evs
      | none => none
    | _ => none

/-- Iterate `fill` on fresh buffers `n` times, returning the final settings
(`none` on any failure). -/
def fillN : Nat → Settings → Option Settings
  | 0, s => some s
  | n + 1, s =>
    match fill true s freshBuffer with
    | .ok _ s2 => fillN n s2
    | _ => none

/-- Iterate `make_image` on a fixed frame `n` times, returning the final
settings. -/
def paintN (frame : List Nat) : Nat → Settings → Option Settings
  | 0, s => some s
  | n + 1, s =>
    match make_image s frame with
    | none => none
    | some (_, s2) => paintN frame n s2

/-! ### Helper lemmas about the painting loops -/

theorem getD_take (l : List Nat) (n i : Nat) (h : i < n) :
    (l.take n).getD i 0 = l.getD i 0 := by
  induction l generalizing n i with
  | nil => simp
  | cons a as ih =>
    match n, h with
    | n + 1, h =>
      match i with
      | 0 => rfl
      | i + 1 =>
        simp only [List.take_succ_cons, List.getD_cons_succ]
        exact ih n i (by omega)

theorem getD_drop (l : List Nat) (n i : Nat) :
    (l.drop n).getD i 0 = l.getD (n + i) 0 := by
  induction l generalizing n with
  | nil => simp [List.getD]
  | cons a as ih =>
    match n with
    | 0 => simp
    | n + 1 =>
      simp only [List.drop_succ_cons]
      rw [ih n, show n + 1 + i = (n + i) + 1 by omega, List.getD_cons_succ]

theorem paintRow_length (c w4 : Nat) (l : List Nat) :
    (paintRow c w4 l).length = l.length := by
  induction w4, l using paintRow.induct c with
  | case1 w4 b0 b1 b2 b3 rest h4 ih =>
    rw [paintRow, if_pos h4]
    simpa using ih
  | case2 w4 b0 b1 b2 b3 rest h4 =>
    rw [paintRow, if_neg h4]
  | case3 w4 l hm =>
    rcases l with _ | ⟨a, _ | ⟨b, _ | ⟨e, _ | ⟨d, rest⟩⟩⟩⟩
    · rfl
    · rfl
    · rfl
    · rfl
    · exact (hm a b e d rest rfl).elim

theorem paintRow_getD (c : Nat) (w4 : Nat) (l : List Nat) :
    w4 ≤ l.length → ∀ j, (paintRow c w4 l).getD j 0 =
      if j / 4 * 4 + 4 ≤ w4 ∧ j % 4 < 3 then c else l.getD j 0 := by
  induction w4, l using paintRow.induct c with
  | case1 w4 b0 b1 b2 b3 rest h4 ih =>
    intro hw j
    rw [paintRow, if_pos h4]
    rcases j with _ | _ | _ | _ | j
    · rw [if_pos (by omega)]; rfl
    · rw [if_pos (by omega)]; rfl
    · rw [if_pos (by omega)]; rfl
    · rw [if_neg (by omega)]; rfl
    · simp only [List.getD_cons_succ]
      have hw4 : w4 - 4 ≤ rest.length := by
        simp only [List.length_cons] at hw; omega
      rw [ih hw4 j]
      by_cases hc : j / 4 * 4 + 4 ≤ w4 - 4 ∧ j % 4 < 3
      · rw [if_pos hc, if_pos (by omega)]
      · rw [if_neg hc, if_neg (by omega)]
  | case2 w4 b0 b1 b2 b3 rest h4 =>
    intro hw j
    rw [paintRow, if_neg h4, if_neg (by omega)]
  | case3 w4 l hm =>
    intro hw j
    rcases l with _ | ⟨a, _ | ⟨b, _ | ⟨e, _ | ⟨d, rest⟩⟩⟩⟩
    · simp only [List.length_nil] at hw
      rw [show paintRow c w4 [] = [] from rfl, if_neg (by omega)]
    · simp only [List.length_cons, List.length_nil] at hw
      rw [show paintRow c w4 [a] = [a] from rfl, if_neg (by omega)]
    · simp only [List.length_cons, List.length_nil] at hw
      rw [show paintRow c w4 [a, b] = [a, b] from rfl, if_neg (by omega)]
    · simp only [List.length_cons, List.length_nil] at hw
      rw [show paintRow c w4 [a, b, e] = [a, b, e] from rfl, if_neg (by omega)]
    · exact (hm a b e d rest rfl).elim

theorem paintData_length (offs bs w4 stride : Nat) (idx : Nat) (data : List Nat) :
    (paintData offs bs w4 stride idx data).length = data.length := by
  induction idx, data using paintData.induct offs bs w4 stride with
  | case1 idx data h ih =>
    rw [paintData, dif_pos h]
    simp only [List.length_append, paintRow_length, List.length_take, List.length_drop, ih]
    omega
  | case2 idx data h => rw [paintData, dif_neg h]

theorem paintData_getD (offs bs w4 stride : Nat) (hs : 0 < stride) (hw : w4 ≤ stride)
    (idx : Nat) (data : List Nat) : ∀ (i : Nat),
      (paintData offs bs w4 stride idx data).getD i 0 =
        if (i / stride + 1) * stride ≤ data.length ∧
            i % stride / 4 * 4 + 4 ≤ w4 ∧ i % stride % 4 < 3 then
          (if barCond offs bs (idx + i / stride) then 255 else 0)
        else data.getD i 0 := by
  induction idx, data using paintData.induct offs bs w4 stride with
  | case1 idx data h ih =>
    intro i
    rw [paintData, dif_pos h]
    have h2 := h.2
    by_cases hi : i < stride
    · rw [List.getD_append _ _ _ _ (by rw [paintRow_length, List.length_take]; omega)]
      rw [paintRow_getD _ w4 (data.take stride) (by rw [List.length_take]; omega) i]
      rw [getD_take data stride i hi]
      rw [Nat.div_eq_of_lt hi, Nat.mod_eq_of_lt hi, Nat.add_zero]
      simp only [Nat.zero_add, one_mul, and_iff_right h2, Nat.add_zero]
    · obtain ⟨j, rfl⟩ : ∃ j, i = stride + j := ⟨i - stride, by omega⟩
      rw [List.getD_append_right _ _ _ _ (by rw [paintRow_length, List.length_take]; omega)]
      rw [paintRow_length, List.length_take, show min stride data.length = stride by omega,
        Nat.add_sub_cancel_left]
      rw [ih j, getD_drop data stride j]
      rw [Nat.add_div_left j hs, Nat.add_mod_left stride j, List.length_drop,
        show idx + 1 + j / stride = idx + (j / stride + 1) by omega]
      have hmul : (j / stride + 1 + 1) * stride = (j / stride + 1) * stride + stride := by
        ring
      have hiff : (j / stride + 1 + 1) * stride ≤ data.length ↔
          (j / stride + 1) * stride ≤ data.length - stride := by omega
      simp only [hiff]
  | case2 idx data h =>
    intro i
    rw [paintData, dif_neg h]
    have hstride : stride ≤ (i / stride + 1) * stride :=
      Nat.le_mul_of_pos_left stride (Nat.succ_pos _)
    have hfalse : ¬ ((i / stride + 1) * stride ≤ data.length ∧
        i % stride / 4 * 4 + 4 ≤ w4 ∧ i % stride % 4 < 3) := by
      intro hx
      omega
    rw [if_neg hfalse]

/-! ### Concrete instances used in traces, counterexamples and witnesses -/

/-- A 320x240 BGRx descriptor at framerate 1/1 (whole-second frame times). -/
def info11 : VideoInfo :=
  { format := .bgrx, width := 320, height := 240, fpsNum := 1, fpsDen := 1,
    size := 307200, stride := 1280 }

/-- Caps parsing to `info11`. -/
def caps11 : Caps := { structs := [{ name := "video/x-raw" }], parse := some info11 }

/-- A 320x240 BGRx descriptor at framerate 30/1. -/
def info30 : VideoInfo :=
  { format := .bgrx, width := 320, height := 240, fpsNum := 30, fpsDen := 1,
    size := 307200, stride := 1280 }

/-- Renegotiation trace for the accumulator transfer: negotiate, 3 frames,
renegotiate, 2 frames, renegotiate. -/
def traceC1 : List Ev :=
  [.caps caps11, .frame, .frame, .frame, .caps caps11, .frame, .frame, .caps caps11]

/-- Renegotiation trace for the timeline: negotiate, 2 frames, renegotiate,
1 frame, renegotiate, 1 frame. -/
def traceC2 : List Ev :=
  [.caps caps11, .frame, .frame, .caps caps11, .frame, .caps caps11, .frame]

/-- A stored descriptor whose pixel layout is unrecognized. -/
def unknownInfo : VideoInfo := { startInfo with format := .unknown }

/-- Settings holding the unrecognized-layout descriptor. -/
def unknownSettings : Settings := { Settings.default with info := some unknownInfo }

/-- A negotiated descriptor whose frame byte size is exactly `2^32`
(e.g. 65536x16384 at 4 bytes per pixel). -/
def hugeInfo : VideoInfo :=
  { format := .bgrx, width := 65536, height := 16384, fpsNum := 30, fpsDen := 1,
    size := 4294967296, stride := 262144 }

/-- Settings holding the `2^32`-byte descriptor. -/
def hugeSettings : Settings := { Settings.default with info := some hugeInfo }

/-- Settings for the painting counterexample: a 1-pixel-wide, 7-row frame,
bar offset 5 and bar size `u32::MAX`, so `offset + size` wraps in `u32`. -/
def c3Settings : Settings :=
  { Settings.default with
    info := some { format := .bgrx, width := 1, height := 7, fpsNum := 30,
                   fpsDen := 1, size := 28, stride := 4 }
    offset := 5
    size := 4294967295 }

/-- Settings for the offset counterexample: height 10, offset 5, speed
`u32::MAX`, so `offset + speed` wraps in `u32`. -/
def c5Settings : Settings :=
  { Settings.default with
    info := some { format := .bgrx, width := 1, height := 10, fpsNum := 30,
                   fpsDen := 1, size := 40, stride := 4 }
    offset := 5
    speed := 4294967295
    size := 1 }

/-- Settings whose foreground color has a non-opaque alpha byte. -/
def fgSettings : Settings := { Settings.default with foreground_color := 0x00ffffff }

/-! ### Characterization of make_image on well-formed frames -/

theorem make_image_eq (s : Settings) (info : VideoInfo) (frame : List Nat)
    (hinfo : s.info = some info) (hs : 0 < info.stride)
    (hw : 4 * info.width ≤ info.stride) (hh : 0 < info.height) :
    make_image s frame =
      some (paintData s.offset s.size (4 * info.width) info.stride 0 frame,
        { s with offset := u32 (s.offset + s.speed) % info.height }) := by
  rw [make_image, hinfo]
  simp only
  rw [if_neg (by omega), if_neg (fun hx => hx.2 hw), if_neg (by omega)]

/-- On a set format with a recognized layout and a stamped pts, `fill_image`
succeeds; only the buffer payload and the settings `offset` can change. -/
theorem fill_image_ok (s : Settings) (b : Buffer) (info : VideoInfo) (p : Nat)
    (hinfo : s.info = some info) (hfmt : ¬ info.format = VideoFormat.unknown)
    (hpts : b.pts = some p)
    (hmap : b.mappable = true →
      0 < info.stride ∧ 4 * info.width ≤ info.stride ∧ 0 < info.height) :
    ∃ b2 s2, fill_image s b = .ok b2 s2 ∧
      b2.pts = some p ∧ b2.dts = b.dts ∧ b2.offset = b.offset ∧
      b2.offset_end = b.offset_end ∧ b2.duration = b.duration ∧
      s2.info = some info ∧ s2.accum_frames = s.accum_frames ∧
      s2.n_frames = s.n_frames ∧ s2.running_time = s.running_time ∧
      s2.accum_rtime = s.accum_rtime := by
  rw [fill_image, hinfo]
  simp only [if_neg hfmt]
  rw [hpts]
  cases hm : b.mappable with
  | true =>
    obtain ⟨h1, h2, h3⟩ := hmap hm
    simp only [if_pos rfl]
    rw [make_image_eq s info b.data hinfo h1 h2 h3]
    exact ⟨_, _, rfl, rfl, rfl, rfl, rfl, rfl, hinfo, rfl, rfl, rfl, rfl⟩
  | false =>
    simp only [Bool.false_eq_true, if_false]
    exact ⟨_, _, rfl, hpts, rfl, rfl, rfl, rfl, hinfo, rfl, rfl, rfl, rfl⟩

/-! ### The claims -/

/-- Claim C1 (code bug): the claim states that a successful `set_caps`
transfers `frame_count`/`running_time` into the accumulators *additively*.
The source assigns instead of adding (`accum_rtime = running_time`,
`accum_frames = n_frames`), so after the trace negotiate / 3 frames /
renegotiate / 2 frames / renegotiate, the accumulators hold `(2, 2s)` — the
last epoch only — where the additive transfer claimed by the spec would
give `(3 + 2, 3s + 2s)`. -/
theorem c1_accum_transfer_overwritten :
    ((run Settings.default [] traceC1).map fun r => (r.1.accum_frames, r.1.accum_rtime))
      = some (2, 2000000000) ∧
    ((2 : Nat), (2000000000 : Nat)) ≠ (3 + 2, 3000000000 + 2000000000) :=
  ⟨by decide, by decide⟩

/-- Whether consecutive elements of a list never decrease. -/
def nondecreasing : List Nat → Bool
  | a :: b :: rest => decide (a ≤ b) && nondecreasing (b :: rest)
  | _ => true

/-- Claim C2 (code bug): the claim states that pts values are monotonically
non-decreasing across renegotiations.  Because `set_caps` overwrites the
accumulators instead of adding, the trace negotiate / 2 frames / renegotiate /
1 frame / renegotiate / 1 frame stamps pts `[0s, 1s, 2s, 1s]`: the timeline
jumps backwards after the second renegotiation. -/
theorem c2_timeline_regresses :
    ((run Settings.default [] traceC2).map Prod.snd)
      = some [0, 1000000000, 2000000000, 1000000000] ∧
    nondecreasing [0, 1000000000, 2000000000, 1000000000] = false :=
  ⟨by decide, by decide⟩

/-- Claim C7: when the foreground color's alpha byte (bits 24-31) is not
0xFF, `fixate` returns the candidate caps unchanged and leaves the settings
(including the stored format descriptor) untouched, whatever the library
fixation operations would do. -/
theorem c7_fixate_refuses {C : Type} (fixateOps : C → C) (s : Settings) (caps : C)
    (h : ¬ s.foreground_color >>> 24 = 255) :
    fixate fixateOps s caps = (caps, s) := by
  rw [fixate, if_neg h]

/-- Witness for C7 at `foreground_color = 0x00FFFFFF`. -/
theorem c7_fixate_refuses_witness :
    fixate (fun n => n + 1) fgSettings 7 = (7, fgSettings) :=
  c7_fixate_refuses (fun n => n + 1) fgSettings 7 (by decide)

/-- Claim C10: setting any one of the four named properties changes only the
corresponding configuration field; every other field of the settings —
the other three properties, `offset`, the format descriptor, `n_frames`,
`running_time` and both accumulators — is unchanged. -/
theorem c10_set_property_isolated (v : Nat) (s : Settings) :
    ((set_property s .foregroundColor v).foreground_color = v ∧
      (set_property s .foregroundColor v).background_color = s.background_color ∧
      (set_property s .foregroundColor v).info = s.info ∧
      (set_property s .foregroundColor v).size = s.size ∧
      (set_property s .foregroundColor v).offset = s.offset ∧
      (set_property s .foregroundColor v).speed = s.speed ∧
      (set_property s .foregroundColor v).accum_frames = s.accum_frames ∧
      (set_property s .foregroundColor v).n_frames = s.n_frames ∧
      (set_property s .foregroundColor v).running_time = s.running_time ∧
      (set_property s .foregroundColor v).accum_rtime = s.accum_rtime) ∧
    ((set_property s .backgroundColor v).background_color = v ∧
      (set_property s .backgroundColor v).foreground_color = s.foreground_color ∧
      (set_property s .backgroundColor v).info = s.info ∧
      (set_property s .backgroundColor v).size = s.size ∧
      (set_property s .backgroundColor v).offset = s.offset ∧
      (set_property s .backgroundColor v).speed = s.speed ∧
      (set_property s .backgroundColor v).accum_frames = s.accum_frames ∧
      (set_property s .backgroundColor v).n_frames = s.n_frames ∧
      (set_property s .backgroundColor v).running_time = s.running_time ∧
      (set_property s .backgroundColor v).accum_rtime = s.accum_rtime) ∧
    ((set_property s .speed v).speed = v ∧
      (set_property s .speed v).foreground_color = s.foreground_color ∧
      (set_property s .speed v).background_color = s.background_color ∧
      (set_property s .speed v).info = s.info ∧
      (set_property s .speed v).size = s.size ∧
      (set_property s .speed v).offset = s.offset ∧
      (set_property s .speed v).accum_frames = s.accum_frames ∧
      (set_property s .speed v).n_frames = s.n_frames ∧
      (set_property s .speed v).running_time = s.running_time ∧
      (set_property s .speed v).accum_rtime = s.accum_rtime) ∧
    ((set_property s .size v).size = v ∧
      (set_property s .size v).foreground_color = s.foreground_color ∧
      (set_property s .size v).background_color = s.background_color ∧
      (set_property s .size v).info = s.info ∧
      (set_property s .size v).offset = s.offset ∧
      (set_property s .size v).speed = s.speed ∧
      (set_property s .size v).accum_frames = s.accum_frames ∧
      (set_property s .size v).n_frames = s.n_frames ∧
      (set_property s .size v).running_time = s.running_time ∧
      (set_property s .size v).accum_rtime = s.accum_rtime) :=
  ⟨⟨rfl, rfl, rfl, rfl, rfl, rfl, rfl, rfl, rfl, rfl⟩,
   ⟨rfl, rfl, rfl, rfl, rfl, rfl, rfl, rfl, rfl, rfl⟩,
   ⟨rfl, rfl, rfl, rfl, rfl, rfl, rfl, rfl, rfl, rfl⟩,
   ⟨rfl, rfl, rfl, rfl, rfl, rfl, rfl, rfl, rfl, rfl⟩⟩

/-- Claim C3 counterexample: with `offset = 5` and `bar_size = u32::MAX` on a
1-pixel-wide, 7-row frame, row 5 lies in the claimed interval
`[offset, offset + bar_size)` (first conjunct), yet the painted byte at the
start of row 5 (position 20) is 0x00, not the claimed 0xFF: the source
compares against `offset + bar_size` wrapped in `u32`, which here is 4. -/
theorem c3_paint_wrap_counterexample :
    5 < 5 + 4294967295 ∧
    (make_image c3Settings (List.replicate 28 9)).map (fun r => r.1.getD 20 0)
      = some 0 ∧
    ¬ (0 : Nat) = 255 := by
  refine ⟨by omega, ?_, by omega⟩
  rw [make_image_eq c3Settings _ (List.replicate 28 9) rfl (by decide) (by decide)
    (by decide)]
  simp only [Option.map_some']
  rw [paintData_getD _ _ _ _ (by decide) (by decide) 0 _ 20]
  simp only [List.length_replicate]
  rw [if_pos (by omega)]
  decide

/-- Claim C5 counterexample: with `offset = 5`, `speed = u32::MAX` and
`frame_height = 10`, a single `paint` call leaves `offset = 4` (the `u32`
sum wraps before the reduction mod height), while the claimed formula
`(initial_offset + N*speed) mod frame_height` gives 0. -/
theorem c5_offset_wrap_counterexample :
    (make_image c5Settings []).map (fun r => r.2.offset) = some 4 ∧
    (5 + 1 * 4294967295) % 10 = 0 ∧ ¬ (4 : Nat) = 0 := by
  refine ⟨?_, by decide, by omega⟩
  rw [make_image_eq c5Settings _ [] rfl (by decide) (by decide) (by decide)]
  simp only [Option.map_some']
  decide

/-- Discriminator: is a `fill_image`/`fill` outcome a typed flow error? -/
def FillOut.isFlowError : FillOut → Bool
  | .err _ _ _ => true
  | _ => false

/-- Claim C6 counterexample: calling `fill_image` with no format descriptor
set does not return the `NotNegotiated` flow error the claim requires — the
source panics on `settings.info.unwrap()`. -/
theorem c6_missing_info_counterexample :
    fill_image Settings.default freshBuffer = .panic ∧
    (fill_image Settings.default freshBuffer).isFlowError = false := by
  exact ⟨rfl, rfl⟩

/-- Claim C6 (amended): provided a format descriptor is stored and the buffer
carries a pts, `fill_image` returns the `NotNegotiated` flow error iff the
descriptor's pixel layout is unrecognized (`Unknown`), a mapping failure is
treated as a successful no-op leaving buffer and settings unchanged, and
(for frames whose geometry fits the descriptor) no path panics — all
failures are typed results.  With no descriptor stored, the code panics
instead of returning `NotNegotiated` (see the counterexample). -/
theorem c6_fill_image_errors (s : Settings) (b : Buffer) (info : VideoInfo) (p : Nat)
    (hinfo : s.info = some info) (hpts : b.pts = some p) :
    (info.format = VideoFormat.unknown →
      fill_image s b = .err .notNegotiated s b) ∧
    (¬ info.format = VideoFormat.unknown → b.mappable = false →
      fill_image s b = .ok b s) ∧
    ((b.mappable = true →
        0 < info.stride ∧ 4 * info.width ≤ info.stride ∧ 0 < info.height) →
      ¬ fill_image s b = .panic) := by
  refine ⟨?_, ?_, ?_⟩
  · intro hu
    rw [fill_image, hinfo]
    simp only [if_pos hu]
  · intro hfmt hm
    rw [fill_image, hinfo]
    simp only [if_neg hfmt]
    rw [hpts, hm]
    simp only [Bool.false_eq_true, if_false]
  · intro hmap
    by_cases hu : info.format = VideoFormat.unknown
    · rw [fill_image, hinfo]
      simp only [if_pos hu]
      exact fun hx => FillOut.noConfusion hx
    · obtain ⟨b2, s2, heq, -⟩ := fill_image_ok s b info p hinfo hu hpts hmap
      rw [heq]
      exact fun hx => FillOut.noConfusion hx

/-- Witness for C6 (amended) at the unrecognized-layout settings. -/
theorem c6_fill_image_errors_witness :
    fill_image unknownSettings { freshBuffer with pts := some 0 }
      = .err .notNegotiated unknownSettings { freshBuffer with pts := some 0 } :=
  (c6_fill_image_errors unknownSettings { freshBuffer with pts := some 0 }
    unknownInfo 0 rfl rfl).1 rfl

/-- Claim C8 counterexample: for a negotiated format of byte size exactly
`2^32` and no proposed pool, the fresh pool is reported with size 0 (the
`as u32` cast truncates), not the negotiated byte size. -/
theorem c8_size_truncation_counterexample :
    decide_allocation true hugeSettings { pools := [], hasVideoMeta := false }
      = .ok { pool := .fresh, size := 0, min := 0, max := 0, update := false,
              videoMetaEnabled := false } ∧
    ¬ (0 : Nat) = hugeInfo.size := by
  exact ⟨rfl, by decide⟩

/-- Claim C8 (amended): with no proposed pool, `decide_allocation` reports a
fresh pool sized to the negotiated byte size truncated to 32 bits, with
min = max = 0, as a newly added pool; with at least one proposal it takes the
first proposal, recomputes the size as `max(negotiated, proposed) mod 2^32`
(never smaller than the negotiated size when neither value overflows 32
bits), keeps the proposed min/max, and reports an update at index 0. -/
theorem c8_decide_allocation (s : Settings) (q : AllocQuery) (info : VideoInfo)
    (hinfo : s.info = some info) :
    (q.pools = [] →
      decide_allocation true s q =
        .ok { pool := .fresh, size := u32 info.size, min := 0, max := 0,
              update := false, videoMetaEnabled := q.hasVideoMeta }) ∧
    (∀ p0 sz0 mn0 mx0 rest, q.pools = (p0, sz0, mn0, mx0) :: rest →
      decide_allocation true s q =
        .ok { pool := match p0 with
                      | none => PoolChoice.fresh
                      | some pid => PoolChoice.proposed pid,
              size := u32 (max info.size sz0), min := mn0, max := mx0,
              update := true, videoMetaEnabled := q.hasVideoMeta } ∧
      (info.size < U32 → sz0 < U32 → info.size ≤ u32 (max info.size sz0))) := by
  constructor
  · intro hq
    rw [decide_allocation, hinfo, hq]
    rfl
  · intro p0 sz0 mn0 mx0 rest hq
    constructor
    · rw [decide_allocation, hinfo, hq]
      rfl
    · intro h1 h2
      have hmax : max info.size sz0 < U32 := by omega
      rw [u32, Nat.mod_eq_of_lt hmax]
      omega

/-- Witness for C8 (amended): one proposed pool of size 100 against the
320x240 descriptor (307200 bytes) is resized to 307200 and updated. -/
theorem c8_decide_allocation_witness :
    decide_allocation true { Settings.default with info := some info30 }
        { pools := [(some 1, 100, 2, 3)], hasVideoMeta := true }
      = .ok { pool := .proposed 1, size := u32 (max info30.size 100), min := 2,
              max := 3, update := true, videoMetaEnabled := true } ∧
    info30.size ≤ u32 (max info30.size 100) :=
  ((c8_decide_allocation { Settings.default with info := some info30 }
      { pools := [(some 1, 100, 2, 3)], hasVideoMeta := true } info30 rfl).2
    (some 1) 100 2 3 [] rfl).imp id (fun h => h (by decide) (by decide))

/-- Claim C3 (amended): for every `paint` call over a writable region whose
geometry fits the descriptor (positive stride, `width_px*4 ≤ stride`), within
the first `width_px*4` bytes of each complete stride-length row, bytes 0,1,2
of every 4-byte pixel are set to 0xFF when the row index lies in the wrapped
interval — `offset ≤ idx` and `idx < (offset + bar_size) mod 2^32`, the
comparison the source performs in `u32` arithmetic — and to 0x00 otherwise;
the 4th byte of every pixel, the bytes beyond `width_px*4` in each row, and
any trailing partial row are unchanged.  When `offset + bar_size < 2^32`
the wrapped interval is the claimed `[offset, offset + bar_size)`.  In
particular, for a 320x240 frame with `offset = 0`, `bar_size = 50`, rows 0-49
are pure white and rows 50-239 pure black (4th bytes untouched). -/
theorem c3_paint_characterization (s : Settings) (info : VideoInfo)
    (frame : List Nat) (hinfo : s.info = some info) (hs : 0 < info.stride)
    (hw : 4 * info.width ≤ info.stride) (hh : 0 < info.height) :
    ∃ res s2, make_image s frame = some (res, s2) ∧
      res.length = frame.length ∧
      (∀ i, res.getD i 0 =
        if (i / info.stride + 1) * info.stride ≤ frame.length ∧
            i % info.stride < 4 * info.width ∧ i % info.stride % 4 < 3 then
          (if s.offset ≤ u32 (i / info.stride) ∧
              u32 (i / info.stride) < u32 (s.offset + s.size) then 255 else 0)
        else frame.getD i 0) ∧
      (s.offset = 0 → s.size = 50 → info.stride = 1280 → info.width = 320 →
        frame.length = 307200 →
        ∀ i < 307200, res.getD i 0 =
          if i % 4 < 3 then (if i / 1280 < 50 then 255 else 0)
          else frame.getD i 0) := by
  have hchar : ∀ i,
      (paintData s.offset s.size (4 * info.width) info.stride 0 frame).getD i 0 =
        if (i / info.stride + 1) * info.stride ≤ frame.length ∧
            i % info.stride < 4 * info.width ∧ i % info.stride % 4 < 3 then
          (if s.offset ≤ u32 (i / info.stride) ∧
              u32 (i / info.stride) < u32 (s.offset + s.size) then 255 else 0)
        else frame.getD i 0 := by
    intro i
    rw [paintData_getD s.offset s.size (4 * info.width) info.stride hs hw 0 frame i]
    simp only [barCond, Bool.and_eq_true, decide_eq_true_eq, Nat.zero_add]
    have hiff : (i % info.stride / 4 * 4 + 4 ≤ 4 * info.width) ↔
        (i % info.stride < 4 * info.width) := by omega
    simp only [hiff]
  refine ⟨_, _, make_image_eq s info frame hinfo hs hw hh,
    paintData_length _ _ _ _ _ _, hchar, ?_⟩
  intro h0 h50 h1280 h320 hlen i hi
  rw [hchar i, h0, h50, h1280, h320, hlen]
  simp only [u32, U32]
  have e1 : ((i / 1280 + 1) * 1280 ≤ 307200 ∧ i % 1280 < 4 * 320 ∧
      i % 1280 % 4 < 3) ↔ i % 4 < 3 := by omega
  have e2 : ((0 : Nat) ≤ i / 1280 % 4294967296 ∧
      i / 1280 % 4294967296 < (0 + 50) % 4294967296) ↔ i / 1280 < 50 := by omega
  simp only [e1, e2]

/-- Witness for C3 (amended) on a 2-pixel-wide, 2-row frame with stride 8,
bar at rows `[0, 1)`: byte 0 becomes white, byte 3 keeps its old value, and
row 1 (byte 8) becomes black. -/
theorem c3_paint_characterization_witness :
    ∃ res s2,
      make_image
        { Settings.default with
          info := some { format := .bgrx, width := 2, height := 2, fpsNum := 30,
                         fpsDen := 1, size := 16, stride := 8 }
          offset := 0
          size := 1 }
        (List.replicate 16 9) = some (res, s2) ∧
      res.getD 0 0 = 255 ∧ res.getD 3 0 = 9 ∧ res.getD 8 0 = 0 := by
  obtain ⟨res, s2, heq, -, hchar, -⟩ :=
    c3_paint_characterization
      { Settings.default with
        info := some { format := .bgrx, width := 2, height := 2, fpsNum := 30,
                       fpsDen := 1, size := 16, stride := 8 }
        offset := 0
        size := 1 }
      _ (List.replicate 16 9) rfl (by decide) (by decide) (by decide)
  refine ⟨res, s2, heq, ?_, ?_, ?_⟩
  · rw [hchar 0]; decide
  · rw [hchar 3]; decide
  · rw [hchar 8]; decide

/-- Claim C5 (amended): each `paint` call sets
`offset = ((offset + speed) mod 2^32) mod frame_height` (the addition wraps in
`u32`), a value always in `[0, frame_height)`; and provided
`speed + frame_height ≤ 2^32` (so the 32-bit addition never wraps — forced by
the counterexample), for every initial `offset < frame_height`,
`bar_size < frame_height` and `N`, after `N` calls the offset equals
`(initial_offset + N*speed) mod frame_height`. -/
theorem c5_offset_advance (frame : List Nat) (s : Settings) (info : VideoInfo)
    (hinfo : s.info = some info) (hs : 0 < info.stride)
    (hw : 4 * info.width ≤ info.stride) (hbar : s.size < info.height)
    (hoff : s.offset < info.height) (hspeed : s.speed + info.height ≤ U32) :
    (∀ d s1, make_image s frame = some (d, s1) →
      s1.offset = u32 (s.offset + s.speed) % info.height ∧
        s1.offset < info.height) ∧
    (∀ N, ∃ s2, paintN frame N s = some s2 ∧
      s2.offset = (s.offset + N * s.speed) % info.height ∧
      s2.offset < info.height) := by
  have hh : 0 < info.height := by omega
  constructor
  · intro d s1 heq
    rw [make_image_eq s info frame hinfo hs hw hh] at heq
    obtain ⟨-, rfl⟩ := Prod.mk.injEq .. ▸ Option.some.injEq .. ▸ heq
    exact ⟨rfl, Nat.mod_lt _ hh⟩
  · intro N
    induction N generalizing s with
    | zero =>
      refine ⟨s, rfl, ?_, hoff⟩
      rw [Nat.zero_mul, Nat.add_zero, Nat.mod_eq_of_lt hoff]
    | succ N ih =>
      have hstep : make_image s frame =
          some (paintData s.offset s.size (4 * info.width) info.stride 0 frame,
            { s with offset := u32 (s.offset + s.speed) % info.height }) :=
        make_image_eq s info frame hinfo hs hw hh
      have hwrap : u32 (s.offset + s.speed) = s.offset + s.speed :=
        Nat.mod_eq_of_lt (by unfold u32 at *; omega)
      obtain ⟨s2, hrun, hval, hlt⟩ :=
        ih { s with offset := u32 (s.offset + s.speed) % info.height }
          hinfo hbar (Nat.mod_lt _ hh) hspeed
      refine ⟨s2, ?_, ?_, hlt⟩
      · rw [paintN, hstep]
        exact hrun
      · rw [hval]
        simp only [hwrap, Nat.mod_add_mod]
        congr 1
        ring

/-- Witness for C5 (amended): from offset 2, speed 5, height 7, three calls
land on `(2 + 3*5) mod 7 = 3`. -/
theorem c5_offset_advance_witness :
    ∃ s2,
      paintN []
        3
        { Settings.default with
          info := some { format := .bgrx, width := 1, height := 7, fpsNum := 30,
                         fpsDen := 1, size := 28, stride := 4 }
          offset := 2
          size := 3 } = some s2 ∧
      s2.offset = (2 + 3 * 5) % 7 ∧ s2.offset < 7 :=
  (c5_offset_advance []
    { Settings.default with
      info := some { format := .bgrx, width := 1, height := 7, fpsNum := 30,
                     fpsDen := 1, size := 28, stride := 4 }
      offset := 2
      size := 3 }
    _ rfl (by decide) (by decide) (by decide) (by decide) (by decide)).2 3

/-- `u64` is the identity below `2^64`. -/
theorem u64_eq_of_lt {n : Nat} (h : n < U64) : u64 n = n := Nat.mod_eq_of_lt h

/-- The settings used by the C4 witness. -/
def c4s : Settings := { Settings.default with info := some info30 }

/-- Claim C4: on a pull with a recognized negotiated format (and counters and
timing values inside the `u64` range they occupy in any reachable state),
`fill` succeeds and stamps the buffer with pts `accum_rtime + running_time`,
no dts, sequence offset `accum_frames + n_frames`, end offset `offset + 1`;
it increments `n_frames` by one and stores
`running_time = n_frames * fpsDen * 1e9 / fpsNum` (exact integer arithmetic,
no 64-bit truncation thanks to the wide intermediate of
`gst_util_uint64_scale`), with the buffer duration the difference from the
previous running time.  In particular at framerate 30/1, 30 frames from a
fresh epoch leave `running_time` at exactly 1_000_000_000 ns. -/
theorem c4_stamp (s : Settings) (b : Buffer) (info : VideoInfo)
    (hinfo : s.info = some info)
    (hfmt : ¬ info.format = VideoFormat.unknown)
    (hpts : s.accum_rtime + s.running_time < U64 - 1)
    (hframes : s.accum_frames + s.n_frames + 1 < U64)
    (hnum : 0 < info.fpsNum)
    (hden : info.fpsDen * 1000000000 < U64)
    (hres : (s.n_frames + 1) * (info.fpsDen * 1000000000) / info.fpsNum < U64 - 1)
    (hmono : s.running_time ≤
      (s.n_frames + 1) * (info.fpsDen * 1000000000) / info.fpsNum)
    (hmap : b.mappable = true →
      0 < info.stride ∧ 4 * info.width ≤ info.stride ∧ 0 < info.height) :
    (∃ b2 s2, fill true s b = .ok b2 s2 ∧
      b2.pts = some (s.accum_rtime + s.running_time) ∧
      b2.dts = none ∧
      b2.offset = s.accum_frames + s.n_frames ∧
      b2.offset_end = s.accum_frames + s.n_frames + 1 ∧
      s2.n_frames = s.n_frames + 1 ∧
      s2.running_time =
        (s.n_frames + 1) * (info.fpsDen * 1000000000) / info.fpsNum ∧
      b2.duration = some (s2.running_time - s.running_time)) ∧
    (fillN 30 { Settings.default with info := some info30 }).map
      (fun s2 => s2.running_time) = some 1000000000 := by
  refine ⟨?_, by decide⟩
  obtain ⟨b2, s2, hfi, hbpts, hbdts, hboff, hboffend, hbdur,
    hsinfo, hsaf, hsnf, hsrt, hsart⟩ :=
    fill_image_ok s { b with pts := some (s.accum_rtime + s.running_time) } info
      (s.accum_rtime + s.running_time) hinfo hfmt rfl hmap
  have hp1 : ¬ (U64 - 1 ≤ s.accum_rtime + s.running_time) := by omega
  have hsync : ¬ (true = false) := Bool.noConfusion
  have hnf1 : s.n_frames + 1 < U64 := by omega
  have hscale : gst_util_uint64_scale (u64 (s.n_frames + 1))
      (u64 (info.fpsDen * 1000000000)) info.fpsNum =
      (s.n_frames + 1) * (info.fpsDen * 1000000000) / info.fpsNum := by
    rw [u64_eq_of_lt hnf1, u64_eq_of_lt hden, gst_util_uint64_scale,
      if_neg (by omega)]
    exact min_eq_left (by omega)
  rw [fill, hinfo]
  simp only [if_neg hp1, if_neg hsync, hfi, hsnf, hsaf, hsrt, hscale]
  rw [if_neg (by omega), if_neg (by omega)]
  refine ⟨_, _, rfl, hbpts, rfl, ?_, ?_, ?_, rfl, rfl⟩
  · exact u64_eq_of_lt (by omega)
  · show u64 (u64 (s.accum_frames + s.n_frames) + 1)
        = s.accum_frames + s.n_frames + 1
    rw [u64_eq_of_lt (show s.accum_frames + s.n_frames < U64 by omega)]
    exact u64_eq_of_lt hframes
  · exact u64_eq_of_lt hnf1

/-- Witness for C4 at a fresh 320x240 30/1 epoch and an unmappable buffer. -/
theorem c4_stamp_witness :
    (∃ b2 s2, fill true c4s freshBuffer = .ok b2 s2 ∧
      b2.pts = some (c4s.accum_rtime + c4s.running_time) ∧
      b2.dts = none ∧
      b2.offset = c4s.accum_frames + c4s.n_frames ∧
      b2.offset_end = c4s.accum_frames + c4s.n_frames + 1 ∧
      s2.n_frames = c4s.n_frames + 1 ∧
      s2.running_time =
        (c4s.n_frames + 1) * (info30.fpsDen * 1000000000) / info30.fpsNum ∧
      b2.duration = some (s2.running_time - c4s.running_time)) ∧
    (fillN 30 { Settings.default with info := some info30 }).map
      (fun s2 => s2.running_time) = some 1000000000 :=
  c4_stamp c4s freshBuffer info30 rfl (by decide) (by decide) (by decide)
    (by decide) (by decide) (by decide) (by decide) (by decide)

/-- The only flow error `fill_image` returns is `NotNegotiated`, raised
before any state mutation: the settings and the buffer come back exactly as
passed. -/
theorem fill_image_err (s : Settings) (b : Buffer) (e : FlowError)
    (s2 : Settings) (b2 : Buffer) (h : fill_image s b = .err e s2 b2) :
    s2 = s ∧ b2 = b ∧ e = .notNegotiated := by
  rw [fill_image] at h
  split at h
  · exact FillOut.noConfusion h
  · split at h
    · injection h with h1 h2 h3
      exact ⟨h2.symm, h3.symm, h1.symm⟩
    · split at h
      · exact FillOut.noConfusion h
      · split at h
        · split at h
          · exact FillOut.noConfusion h
          · exact FillOut.noConfusion h
        · exact FillOut.noConfusion h

/-- Claim C9: whenever `fill` returns a flow error, the whole timing state
(`n_frames`, `running_time`, `accum_frames`, `accum_rtime`, and the bar
`offset`) is exactly as before the pull, and `create` propagates the same
error to its caller. -/
theorem c9_error_preserves_state (sync : Bool) (s : Settings) (b : Buffer)
    (e : FlowError) (s2 : Settings) (b2 : Buffer)
    (h : fill sync s b = .err e s2 b2) :
    s2.n_frames = s.n_frames ∧ s2.running_time = s.running_time ∧
    s2.accum_frames = s.accum_frames ∧ s2.accum_rtime = s.accum_rtime ∧
    s2.offset = s.offset ∧
    ∀ len, 0 < len → create sync s (.ok b) len = .err e s2 := by
  have key : s2 = s := by
    simp only [fill] at h
    repeat' split at h
    all_goals try exact FillOut.noConfusion h
    rename_i heq
    injection h with h1 h2 h3
    obtain ⟨hs, -, -⟩ := fill_image_err _ _ _ _ _ heq
    rw [← h2, hs]
  subst key
  refine ⟨rfl, rfl, rfl, rfl, rfl, ?_⟩
  intro len hlen
  rw [create]
  simp only [if_pos hlen, h]

/-- Witness for C9 at the unrecognized-layout settings: `fill` fails with
`NotNegotiated` and the state is untouched. -/
theorem c9_error_preserves_state_witness :
    unknownSettings.n_frames = unknownSettings.n_frames ∧
    unknownSettings.running_time = unknownSettings.running_time ∧
    unknownSettings.accum_frames = unknownSettings.accum_frames ∧
    unknownSettings.accum_rtime = unknownSettings.accum_rtime ∧
    unknownSettings.offset = unknownSettings.offset ∧
    ∀ len, 0 < len →
      create true unknownSettings (.ok freshBuffer) len
        = .err .notNegotiated unknownSettings :=
  c9_error_preserves_state true unknownSettings freshBuffer .notNegotiated
    unknownSettings { freshBuffer with pts := some 0 } (by decide)

end GstPattern
